import Mathlib

/-!
# ocdev: components, URLs and the current-component context

A shallow embedding of `pkg/component/component.go`, `pkg/url/url.go` and the
`url create` command of `cmd/url.go`.

Conventions of the embedding

* A Go `error` is `GoError := Option String`; `none` is `nil`.  A Go function
  returning `(T, error)` returns a pair here, because the Go code can (and does)
  return a zero value together with a `nil` error.
* `map[string]string` is an association list `GoMap` with Go's lookup
  (`GoMap.get`, the zero value `""` for a missing key) and assignment
  (`GoMap.set`).
* The platform client `occlient.Client`, the package `application` and the
  read and write outcomes of the package `config` are collaborators whose
  source is not part of the embedded files: they are parameters
  (`occlient.Client`, `application.Package`, `Env`).
* A function that talks to a collaborator takes a `World` and returns the new
  one: the persisted context store, and the calls made so far in program order
  (`World.calls`), so that ordering properties can be stated.
* A nil pointer dereference is a panic: a function that can panic returns an
  `Option`, `none` being the panic.
-/

set_option autoImplicit false
set_option linter.dupNamespace false

/-! ## Go basics -/

/-- A Go `error` value: `none` is `nil`, `some msg` is an error whose `Error()` is `msg`. -/
abbrev GoError := Option String

/-- The function `errors.Wrap(err, message)` of `github.com/pkg/errors`: annotates `err` with
`message`; **if `err` is nil, `Wrap` returns nil**. -/
def errors.Wrap (err : GoError) (message : String) : GoError :=
  match err with
  | none => none
  | some e => some (message ++ ": " ++ e)

/-- The function `errors.Wrapf(err, format, args...)`: as `errors.Wrap`, the message being the
formatted string (passed already formatted); nil for a nil `err`. -/
def errors.Wrapf (err : GoError) (formatted : String) : GoError :=
  errors.Wrap err formatted

/-- The function `fmt.Errorf`: always a non-nil error (the message is passed already formatted). -/
def fmt.Errorf (formatted : String) : GoError := some formatted

/-- A Go `map[string]string`. -/
abbrev GoMap := List (String × String)

/-- The Go expression `m[k]`: the value stored under `k`, or `""` when `k` is absent. -/
def GoMap.get (m : GoMap) (k : String) : String :=
  match m.lookup k with
  | some v => v
  | none => ""

/-- The Go statement `m[k] = v`. -/
def GoMap.set (m : GoMap) (k v : String) : GoMap :=
  (k, v) :: m.filter (fun p => p.1 != k)

/-- The Go expression `_, ok := m[k]; ok`: whether the key is present. -/
def GoMap.has (m : GoMap) (k : String) : Bool :=
  (m.lookup k).isSome

/-! ## Collaborators: platform objects and the platform client -/

/-- The type `buildv1.GitBuildSource`: only the field read by the code. -/
structure buildv1.GitBuildSource where
  URI : String
  deriving DecidableEq, Repr

/-- The type `buildv1.BuildSource`: `Type_` (Go: `Type`) is the string-typed
`BuildSourceType`, `Git` a pointer. -/
structure buildv1.BuildSource where
  Type_ : String
  Git : Option buildv1.GitBuildSource
  deriving DecidableEq, Repr

/-- The constant `buildv1.BuildSourceGit`. -/
def buildv1.BuildSourceGit : String := "Git"

/-- The constant `buildv1.BuildSourceBinary`. -/
def buildv1.BuildSourceBinary : String := "Binary"

/-- The type `buildv1.BuildConfig`: `ObjectMeta.Annotations` and `Spec.Source`. -/
structure buildv1.BuildConfig where
  Annotations : GoMap
  Source : buildv1.BuildSource
  deriving DecidableEq, Repr

/-- The type `routev1.Route`: `ObjectMeta.Name`, `ObjectMeta.Labels` and `Spec.Host`. -/
structure routev1.Route where
  Name : String
  Labels : GoMap
  Host : String
  deriving DecidableEq, Repr

/-- The methods of `*occlient.Client` used by the embedded code, as the results the
platform gives for each argument list. -/
structure occlient.Client where
  GetCurrentProjectName : String × GoError
  NewAppS2I : String → String → String → GoMap → GoMap → String × GoError
  StartBinaryBuild : String → String → GoError
  Delete : String → String → GoMap → String × GoError
  GetLabelValues : String → String → String → List String × GoError
  GetBuildConfig : String → String → Option buildv1.BuildConfig × GoError
  ListRoutes : String → List routev1.Route × GoError
  CreateRoute : String → GoMap → Option routev1.Route × GoError

/-- The functions and the constant of package `application` used by the embedded code. -/
structure application.Package where
  ApplicationLabel : String
  GetLabels : String → Bool → GoMap × GoError
  GetCurrent : occlient.Client → String × GoError
  GetCurrentOrDefault : occlient.Client → String × GoError
  Exists : occlient.Client → String → Bool × GoError
  Create : occlient.Client → String → GoError

/-! ## The context store (package config) -/

/-- Modelled from the spec: the persisted state of the Context Store (package `config`,
whose source is not among the embedded files): for each (application, project) pair the
name of its active component. -/
structure config.Config where
  ActiveComponents : List ((String × String) × String)
  deriving DecidableEq, Repr

/-- Modelled from the spec: `GetActiveComponent(application, project) → name-or-empty` of the
Context Store (package `config`, not among the embedded files). -/
def config.Config.GetActiveComponent (cfg : config.Config) (application project : String) :
    String :=
  match cfg.ActiveComponents.lookup (application, project) with
  | some name => name
  | none => ""

/-- Modelled from the spec: `SetActiveComponent(name, application, project)` of the Context
Store (package `config`, not among the embedded files): the entry of the
(application, project) pair becomes `name`; the empty name clears it. -/
def config.Config.SetActiveComponent (cfg : config.Config) (name application project : String) :
    config.Config :=
  { ActiveComponents :=
      ((application, project), name) ::
        cfg.ActiveComponents.filter (fun e => e.1 != (application, project)) }

/-! ## The world: context store and call trace -/

/-- A call made to a collaborator (or a line written to standard output, or `os.Exit`). -/
inductive Call where
  | applicationGetCurrent
  | applicationGetCurrentOrDefault
  | applicationExists (applicationName : String)
  | applicationCreate (applicationName : String)
  | GetCurrentProjectName
  | NewAppS2I (name builderImage gitURL : String) (labels annotations : GoMap)
  | StartBinaryBuild (name dir : String)
  | Delete (kind name : String) (labels : GoMap)
  | GetLabelValues (project label selector : String)
  | GetBuildConfig (name project : String)
  | ListRoutes (labelSelector : String)
  | CreateRoute (name : String) (labels : GoMap)
  | configNew
  | SetActiveComponent (arg1 arg2 arg3 : String)
  | GetActiveComponent (arg1 arg2 : String)
  | Print (text : String)
  | Exit (code : Nat)
  deriving DecidableEq, Repr

/-- The state a command runs in: the persisted context store and the calls made so far. -/
structure World where
  config : config.Config
  calls : List Call
  deriving DecidableEq, Repr

/-- Appends a call to the trace. -/
def World.record (w : World) (c : Call) : World :=
  { w with calls := w.calls ++ [c] }

/-- The collaborators besides the platform client: package `application`, and whether reading
(`config.New`) and writing (the save inside `SetActiveComponent`) the persisted context store
succeed (`ErrConfigUnavailable` of the spec when they do not). -/
structure Env where
  application : application.Package
  configNew : GoError
  configSave : GoError

/-- Modelled from the spec: `cfg.SetActiveComponent(arg1, arg2, arg3)` on the handle `cfg`
returned by `config.New` (package `config`, not among the embedded files): the loaded state
is updated and written back whole; a failed write leaves the persisted state as it was. -/
def config.ConfigInfo.SetActiveComponent (env : Env) (cfg : config.Config)
    (arg1 arg2 arg3 : String) (w : World) : GoError × World :=
  let w := w.record (Call.SetActiveComponent arg1 arg2 arg3)
  if env.configSave ≠ none then
    (env.configSave, w)
  else
    (none, { w with config := cfg.SetActiveComponent arg1 arg2 arg3 })

/-! ## Package component -/

/-- ComponentLabel is a label key used to identify component. -/
def component.ComponentLabel : String := "app.kubernetes.io/component-name"

/-- The label key that identifies the type of a component. -/
def component.componentTypeLabel : String := "app.kubernetes.io/component-type"

/-- The key under which the source url a component was built from is recorded. -/
def component.componentSourceURLAnnotation : String := "app.kubernetes.io/url"

/-- GetLabels return labels that should be applied to every object for given component in
active application. -/
def component.GetLabels (env : Env) (componentName applicationName : String)
    (additional : Bool) : GoMap × GoError :=
  let r := env.application.GetLabels applicationName additional
  let labels := r.1
  let err := r.2
  if err ≠ none then
    ([], errors.Wrapf err ("unable to get get labels for  component " ++ componentName))
  else
    let labels := labels.set component.ComponentLabel componentName
    (labels, none)

/-- The part of `CreateFromGit` after the application is known to exist: from the call of
`GetLabels` to the end. -/
def component.CreateFromGit.finish (env : Env) (client : occlient.Client)
    (name ctype url currentApplication : String) (w : World) : (String × GoError) × World :=
  let r := component.GetLabels env name currentApplication true
  let labels := r.1
  let err := r.2
  if err ≠ none then
    (("", errors.Wrapf err ("unable to create git component " ++ name)), w)
  else
    let labels := labels.set component.componentTypeLabel ctype
    let annotations : GoMap := [(component.componentSourceURLAnnotation, url)]
    let r := client.NewAppS2I name ctype url labels annotations
    let w := w.record (Call.NewAppS2I name ctype url labels annotations)
    let output := r.1
    let err := r.2
    if err ≠ none then
      (("", errors.Wrapf err ("unable to create git component " ++ name)), w)
    else
      ((output, none), w)

/-- CreateFromGit: create a new component with its source in a git repository. -/
def component.CreateFromGit (env : Env) (client : occlient.Client)
    (name ctype url : String) (w : World) : (String × GoError) × World :=
  let r := env.application.GetCurrentOrDefault client
  let w := w.record Call.applicationGetCurrentOrDefault
  let currentApplication := r.1
  let err := r.2
  if err ≠ none then
    (("", errors.Wrapf err ("unable to create git component " ++ name)), w)
  else
    let r := env.application.Exists client currentApplication
    let w := w.record (Call.applicationExists currentApplication)
    let exists_ := r.1
    let err := r.2
    if err ≠ none then
      (("", errors.Wrapf err ("unable to create git component " ++ name)), w)
    else if !exists_ then
      let err := env.application.Create client currentApplication
      let w := w.record (Call.applicationCreate currentApplication)
      if err ≠ none then
        (("", errors.Wrapf err ("unable to create git component " ++ name)), w)
      else
        component.CreateFromGit.finish env client name ctype url currentApplication w
    else
      component.CreateFromGit.finish env client name ctype url currentApplication w

/-! ## Go's net/url: the string form of a URL -/

/-- The function `shouldEscape(c, encodePath)` of Go's `net/url`, on the byte `c`: letters, digits and
`- _ . ~ $ & + , / : ; = @` are kept, everything else (also `?`) is escaped. -/
def neturl.shouldEscape (c : Nat) : Bool :=
  if (65 ≤ c ∧ c ≤ 90) ∨ (97 ≤ c ∧ c ≤ 122) ∨ (48 ≤ c ∧ c ≤ 57) then false
  else if c = 45 ∨ c = 95 ∨ c = 46 ∨ c = 126 then false
  else if c = 36 ∨ c = 38 ∨ c = 43 ∨ c = 44 ∨ c = 47 ∨ c = 58 ∨ c = 59 ∨ c = 61 ∨ c = 64 then
    false
  else true

/-- The digit `"0123456789ABCDEF"[n]`. -/
def neturl.upperhex (n : Nat) : Char :=
  if n < 10 then Char.ofNat (48 + n) else Char.ofNat (55 + n)

/-- The bytes of one escaped or kept byte: `%XX` for an escaped byte. -/
def neturl.escapeByte (c : Nat) : List Char :=
  if neturl.shouldEscape c then ['%', neturl.upperhex (c / 16), neturl.upperhex (c % 16)]
  else [Char.ofNat c]

/-- The function `escape(s, encodePath)` of Go's `net/url`, byte by byte over the UTF-8 encoding of `s`. -/
def neturl.escape (s : String) : String :=
  String.mk (s.data.flatMap (fun ch =>
    (String.utf8EncodeChar ch).flatMap (fun b => neturl.escapeByte b.toNat)))

/-- The fields of Go's `url.URL` that the embedded code sets; the others (Opaque, User, Host,
RawPath, ForceQuery, RawQuery, Fragment) keep their zero value. -/
structure neturl.URL where
  Scheme : String
  Path : String
  deriving DecidableEq, Repr

/-- The method `u.EscapedPath()` for a URL whose RawPath is empty. -/
def neturl.URL.EscapedPath (u : neturl.URL) : String :=
  if u.Path = "*" then "*" else neturl.escape u.Path

/-- The test `i := strings.IndexByte(path, ':'); i > -1 && strings.IndexByte(path[:i], '/') == -1`:
the first segment of the path holds a colon. -/
def neturl.colonInFirstSegment : List Char → Bool
  | [] => false
  | c :: cs => if c = ':' then true else if c = '/' then false else neturl.colonInFirstSegment cs

/-- The method `u.String()` of Go's `net/url` for a URL with only Scheme and Path set. -/
def neturl.URL.String (u : neturl.URL) : String :=
  let buf := if u.Scheme ≠ "" then u.Scheme ++ ":" else ""
  let buf := if u.Scheme ≠ "" then (if u.Path ≠ "" then buf ++ "//" else buf) else buf
  let path := u.EscapedPath
  let buf := if buf.length = 0 then
      (if neturl.colonInFirstSegment path.data then buf ++ "./" else buf)
    else buf
  buf ++ path

/-! ## Package component, continued -/

/-- The part of `CreateFromDir` after the application is known to exist: from the call of
`GetLabels` to the end. -/
def component.CreateFromDir.finish (env : Env) (client : occlient.Client)
    (name ctype dir currentApplication : String) (w : World) : (String × GoError) × World :=
  let r := component.GetLabels env name currentApplication true
  let labels := r.1
  let err := r.2
  if err ≠ none then
    (("", errors.Wrapf err ("unable to create component " ++ name ++
      " from local path%!(EXTRA string=" ++ dir ++ ")")), w)
  else
    let labels := labels.set component.componentTypeLabel ctype
    let sourceURL : neturl.URL := { Scheme := "file", Path := dir }
    let annotations : GoMap := [(component.componentSourceURLAnnotation, sourceURL.String)]
    let r := client.NewAppS2I name ctype "" labels annotations
    let w := w.record (Call.NewAppS2I name ctype "" labels annotations)
    let output := r.1
    let err := r.2
    if err ≠ none then
      (("", err), w)
    else
      let w := w.record (Call.Print (output ++ "\n"))
      let w := w.record (Call.Print "please wait, building application...\n")
      let err := client.StartBinaryBuild name dir
      let w := w.record (Call.StartBinaryBuild name dir)
      if err ≠ none then
        (("", err), w)
      else
        (("", none), w)

/-- CreateFromDir create new component with source from local directory. -/
def component.CreateFromDir (env : Env) (client : occlient.Client)
    (name ctype dir : String) (w : World) : (String × GoError) × World :=
  let r := env.application.GetCurrentOrDefault client
  let w := w.record Call.applicationGetCurrentOrDefault
  let currentApplication := r.1
  let err := r.2
  if err ≠ none then
    (("", errors.Wrapf err ("unable to create component " ++ name ++
      " from local path%!(EXTRA string=" ++ dir ++ ")")), w)
  else
    let r := env.application.Exists client currentApplication
    let w := w.record (Call.applicationExists currentApplication)
    let exists_ := r.1
    let err := r.2
    if err ≠ none then
      (("", errors.Wrapf err ("unable to create component " ++ name ++
        " from local path%!(EXTRA string=" ++ dir ++ ")")), w)
    else if !exists_ then
      let err := env.application.Create client currentApplication
      let w := w.record (Call.applicationCreate currentApplication)
      if err ≠ none then
        (("", errors.Wrapf err ("unable to create component " ++ name ++
          " from local path%!(EXTRA string=" ++ dir ++ ")")), w)
      else
        component.CreateFromDir.finish env client name ctype dir currentApplication w
    else
      component.CreateFromDir.finish env client name ctype dir currentApplication w

/-- Delete whole component. -/
def component.Delete (env : Env) (client : occlient.Client) (name : String) (w : World) :
    (String × GoError) × World :=
  let r := env.application.GetCurrentOrDefault client
  let w := w.record Call.applicationGetCurrentOrDefault
  let currentApplication := r.1
  let err := r.2
  if err ≠ none then
    (("", errors.Wrapf err ("unable to delete component " ++ name)), w)
  else
    let r := client.GetCurrentProjectName
    let w := w.record Call.GetCurrentProjectName
    let currentProject := r.1
    let err := r.2
    if err ≠ none then
      (("", errors.Wrapf err ("unable to delete component " ++ name)), w)
    else
      let cfg := w.config
      let err := env.configNew
      let w := w.record Call.configNew
      if err ≠ none then
        (("", errors.Wrapf err ("unable to delete component " ++ name)), w)
      else
        let r := component.GetLabels env name currentApplication false
        let labels := r.1
        let err := r.2
        if err ≠ none then
          (("", errors.Wrapf err ("unable to delete component " ++ name)), w)
        else
          let r := client.Delete "all" "" labels
          let w := w.record (Call.Delete "all" "" labels)
          let output := r.1
          let err := r.2
          if err ≠ none then
            (("", errors.Wrapf err ("unable to delete component " ++ name)), w)
          else
            let r := config.ConfigInfo.SetActiveComponent env cfg "" currentProject
              currentApplication w
            let err := r.1
            let w := r.2
            if err ≠ none then
              (("", errors.Wrapf err ("unable to delete component " ++ name)), w)
            else
              ((output, none), w)

/-- SetCurrent: make the component the active one of the current application and project. -/
def component.SetCurrent (env : Env) (client : occlient.Client) (name : String) (w : World) :
    GoError × World :=
  let cfg := w.config
  let err := env.configNew
  let w := w.record Call.configNew
  if err ≠ none then
    (errors.Wrapf err ("unable to set current component " ++ name), w)
  else
    let r := client.GetCurrentProjectName
    let w := w.record Call.GetCurrentProjectName
    let currentProject := r.1
    let err := r.2
    if err ≠ none then
      (errors.Wrapf err ("unable to set current component " ++ name), w)
    else
      let r := env.application.GetCurrent client
      let w := w.record Call.applicationGetCurrent
      let currentApplication := r.1
      let err := r.2
      if err ≠ none then
        (errors.Wrapf err ("unable to set current component " ++ name), w)
      else
        let r := config.ConfigInfo.SetActiveComponent env cfg name currentApplication
          currentProject w
        let err := r.1
        let w := r.2
        if err ≠ none then
          (errors.Wrapf err ("unable to set current component " ++ name), w)
        else
          (none, w)

/-- GetCurrent component in active application; returns "" if there is no active component. -/
def component.GetCurrent (env : Env) (client : occlient.Client) (w : World) :
    (String × GoError) × World :=
  let cfg := w.config
  let err := env.configNew
  let w := w.record Call.configNew
  if err ≠ none then
    (("", errors.Wrap err "unable to get config"), w)
  else
    let r := env.application.GetCurrentOrDefault client
    let w := w.record Call.applicationGetCurrentOrDefault
    let currentApplication := r.1
    let err := r.2
    if err ≠ none then
      (("", errors.Wrap err "unable to get active application"), w)
    else
      let r := client.GetCurrentProjectName
      let w := w.record Call.GetCurrentProjectName
      let currentProject := r.1
      let err := r.2
      if err ≠ none then
        (("", errors.Wrap err "unable to get current  component"), w)
      else
        let currentComponent := cfg.GetActiveComponent currentApplication currentProject
        let w := w.record (Call.GetActiveComponent currentApplication currentProject)
        ((currentComponent, none), w)

/-- The `for _, ctype := range ctypes` loop of `GetComponentType`: `some r` when the loop
body returns `r`, `none` when the loop runs to its end. -/
def component.GetComponentType.loop (first : String) (err : GoError) :
    List String → Option (String × GoError)
  | [] => none
  | ctype :: rest =>
    if first != ctype then
      some ("", errors.Wrap err "data mismatch: %s component has objects with different types")
    else
      component.GetComponentType.loop first err rest

/-- GetComponentType returns type of component in given application and project. -/
def component.GetComponentType (env : Env) (client : occlient.Client)
    (componentName applicationName projectName : String) (w : World) :
    (String × GoError) × World :=
  let selector := component.ComponentLabel ++ "=" ++ componentName ++ "," ++
    env.application.ApplicationLabel ++ "=" ++ applicationName
  let r := client.GetLabelValues projectName component.componentTypeLabel selector
  let w := w.record (Call.GetLabelValues projectName component.componentTypeLabel selector)
  let ctypes := r.1
  let err := r.2
  if err ≠ none then
    (("", errors.Wrap err "unable to get type of %s component"), w)
  else
    match ctypes with
    | [] => (("", errors.Wrap err "unable to find type of %s component"), w)
    | first :: _ =>
      match component.GetComponentType.loop first err ctypes with
      | some ret => (ret, w)
      | none => ((first, none), w)

/-- GetComponentSource what source type given component uses.  The first returned string is
component source type ("git" or "local").  The second returned string is a source (url to
git repository or local path).  In the embedding `none` is the panic of a nil pointer
dereference (`bc` or `bc.Spec.Source.Git`). -/
def component.GetComponentSource (client : occlient.Client)
    (componentName _applicationName projectName : String) (w : World) :
    Option (String × String × GoError) × World :=
  let r := client.GetBuildConfig componentName projectName
  let w := w.record (Call.GetBuildConfig componentName projectName)
  let err := r.2
  if err ≠ none then
    (some ("", "", errors.Wrapf err ("unable to get source path for component " ++
      componentName)), w)
  else
    match r.1 with
    | none => (none, w)
    | some bc =>
      if bc.Source.Type_ = buildv1.BuildSourceGit then
        match bc.Source.Git with
        | none => (none, w)
        | some git => (some ("git", git.URI, none), w)
      else if bc.Source.Type_ = buildv1.BuildSourceBinary then
        let sourcePath := bc.Annotations.get component.componentSourceURLAnnotation
        if sourcePath = "" then
          (some ("", "", fmt.Errorf ("unsupported BuildConfig.Spec.Source.Type " ++
            bc.Source.Type_)), w)
        else
          (some ("local", sourcePath, none), w)
      else
        (some ("", "", fmt.Errorf ("unsupported BuildConfig.Spec.Source.Type " ++
          bc.Source.Type_)), w)

/-! ## Package url -/

/-- The type `URL` of package `url`: the name of a route and its host. -/
structure url.URL where
  Name : String
  URL : String
  deriving DecidableEq, Repr

/-- Create creates a URL.  The result is `(*URL, error)`; `none` outside is the panic of
dereferencing a nil route. -/
def url.Create (env : Env) (client : occlient.Client) (cmp : String) (w : World) :
    Option (Option url.URL × GoError) × World :=
  let r := env.application.GetCurrentOrDefault client
  let w := w.record Call.applicationGetCurrentOrDefault
  let app := r.1
  let err := r.2
  if err ≠ none then
    (some (none, errors.Wrap err "unable to get current application"), w)
  else
    let r := component.GetLabels env cmp app false
    let labels := r.1
    let err := r.2
    if err ≠ none then
      (some (none, errors.Wrap err "unable to get labels"), w)
    else
      let r := client.CreateRoute cmp labels
      let w := w.record (Call.CreateRoute cmp labels)
      let err := r.2
      if err ≠ none then
        (some (none, errors.Wrap err "unable to create route"), w)
      else
        match r.1 with
        | none => (none, w)
        | some route => (some (some { Name := route.Name, URL := route.Host }, none), w)

/-- List lists the URLs in an application.  The results can further be narrowed down if a
component name is provided, which will only list URLs for the given component. -/
def url.List (env : Env) (client : occlient.Client) (componentName applicationName : String)
    (w : World) : (List url.URL × GoError) × World :=
  let labelSelector := env.application.ApplicationLabel ++ "=" ++ applicationName
  let labelSelector :=
    if componentName ≠ "" then
      labelSelector ++ ("," ++ component.ComponentLabel ++ "=" ++ componentName)
    else labelSelector
  let r := client.ListRoutes labelSelector
  let w := w.record (Call.ListRoutes labelSelector)
  let routes := r.1
  let err := r.2
  if err ≠ none then
    (([], errors.Wrap err "unable to list route names"), w)
  else
    let urls := routes.map (fun r => ({ Name := r.Name, URL := r.Host } : url.URL))
    ((urls, none), w)

/-! ## The command `url create` -/

/-- How a command ends: it returns, calls `os.Exit`, or panics. -/
inductive cmd.Status where
  | returned
  | exited (code : Nat)
  | panicked
  deriving DecidableEq, Repr

/-- The part of `Run` of `urlCreateCmd` after the `switch`: the component name `cmp` is
resolved, the URL is created and reported. -/
def cmd.urlCreateCmd.Run.create (env : Env) (client : occlient.Client) (cmp : String)
    (w : World) : cmd.Status × World :=
  let w := w.record (Call.Print ("Adding URL to component: " ++ cmp ++ "\n"))
  let r := url.Create env client cmp w
  let w := r.2
  match r.1 with
  | none => (cmd.Status.panicked, w)
  | some (u, err) =>
    match err with
    | some e =>
      let w := w.record (Call.Print (e ++ "\n"))
      let w := w.record (Call.Exit 1)
      (cmd.Status.exited 1, w)
    | none =>
      match u with
      | none => (cmd.Status.panicked, w)
      | some u =>
        let w := w.record (Call.Print ("URL created for component: " ++ cmp ++ "\n\n" ++
          u.Name ++ " - " ++ u.URL ++ "\n"))
        (cmd.Status.returned, w)

/-- The `Run` function of `urlCreateCmd` (the argument count is at most one by
`cobra.MaximumNArgs(1)`, the `default` case is kept all the same). -/
def cmd.urlCreateCmd.Run (env : Env) (client : occlient.Client) (args : List String)
    (w : World) : cmd.Status × World :=
  match args with
  | [] =>
    let r := component.GetCurrent env client w
    let cmp := r.1.1
    let err := r.1.2
    let w := r.2
    match err with
    | some e =>
      let w := w.record (Call.Print (e ++ "\n"))
      let w := w.record (Call.Exit 1)
      (cmd.Status.exited 1, w)
    | none => cmd.urlCreateCmd.Run.create env client cmp w
  | [arg] => cmd.urlCreateCmd.Run.create env client arg w
  | _ =>
    let w := w.record (Call.Print "unable to get component\n")
    let w := w.record (Call.Exit 1)
    (cmd.Status.exited 1, w)

/-! ## A platform that answers selectors, and example collaborators -/

/-- Modelled from the spec: the pieces of a selector, which is a comma-joined list. -/
def platform.splitComma : List Char → List (List Char)
  | [] => [[]]
  | c :: cs =>
    if c = ',' then [] :: platform.splitComma cs
    else
      match platform.splitComma cs with
      | [] => [[c]]
      | p :: ps => (c :: p) :: ps

/-- Modelled from the spec: the key and the value of a `key=value` piece, split at its first
`=`; `none` for a piece without `=`. -/
def platform.splitPair : List Char → Option (List Char × List Char)
  | [] => none
  | c :: cs =>
    if c = '=' then some ([], cs)
    else
      match platform.splitPair cs with
      | none => none
      | some (k, v) => some (c :: k, v)

/-- Modelled from the spec: the `key=value` pairs of a selector string. -/
def platform.parseSelector (selector : String) : List (String × String) :=
  (platform.splitComma selector.data).filterMap (fun piece =>
    match platform.splitPair piece with
    | none => none
    | some (k, v) => some (String.mk k, String.mk v))

/-- A resource is labelled `key=value`: its labels hold `key` with exactly that value. -/
def platform.labelled (labels : GoMap) (key value : String) : Bool :=
  labels.lookup key == some value

/-- Modelled from the spec: the labels satisfy every `key=value` pair of the selector. -/
def platform.satisfies (labels : GoMap) (selector : String) : Bool :=
  (platform.parseSelector selector).all (fun kv => platform.labelled labels kv.1 kv.2)

/-- Modelled from the spec: the platform behind `client.ListRoutes` (package `occlient` is
not among the embedded files), holding the routes `routes`: it returns exactly the routes
whose labels satisfy every `key=value` pair of the selector. -/
def platform.ListRoutes (routes : List routev1.Route) (selector : String) :
    List routev1.Route × GoError :=
  (routes.filter (fun r => platform.satisfies r.Labels selector), none)

/-- An example package `application`: the application `myapp` is current and exists. -/
def demo.application : application.Package where
  ApplicationLabel := "app.kubernetes.io/name"
  GetLabels := fun applicationName _ => ([("app.kubernetes.io/name", applicationName)], none)
  GetCurrent := fun _ => ("myapp", none)
  GetCurrentOrDefault := fun _ => ("myapp", none)
  Exists := fun _ _ => (true, none)
  Create := fun _ _ => none

/-- An example environment: reading and writing the context store succeed. -/
def demo.env : Env where
  application := demo.application
  configNew := none
  configSave := none

/-- Example routes: two of application `demo` (components `api` and `web`), one of `other`. -/
def demo.routes : List routev1.Route :=
  [ { Name := "api", Host := "api.example.com",
      Labels := [("app.kubernetes.io/name", "demo"), ("app.kubernetes.io/component-name", "api")] },
    { Name := "web", Host := "web.example.com",
      Labels := [("app.kubernetes.io/name", "demo"), ("app.kubernetes.io/component-name", "web")] },
    { Name := "db", Host := "db.example.com",
      Labels := [("app.kubernetes.io/name", "other"), ("app.kubernetes.io/component-name", "api")] } ]

/-- An example platform client: the project is `myproject`, every call succeeds. -/
def demo.client : occlient.Client where
  GetCurrentProjectName := ("myproject", none)
  NewAppS2I := fun name _ _ _ _ => ("created " ++ name, none)
  StartBinaryBuild := fun _ _ => none
  Delete := fun _ _ _ => ("deleted", none)
  GetLabelValues := fun _ _ _ => (["nodejs"], none)
  GetBuildConfig := fun _ _ =>
    (some { Annotations := [], Source := { Type_ := "Git", Git := some { URI := "https://example.com/r.git" } } },
      none)
  ListRoutes := platform.ListRoutes demo.routes
  CreateRoute := fun name labels =>
    (some { Name := name, Labels := labels, Host := name ++ ".example.com" }, none)

/-- The example client with the answer of `GetLabelValues` replaced. -/
def demo.clientWithTypes (ctypes : List String) : occlient.Client :=
  { demo.client with GetLabelValues := fun _ _ _ => (ctypes, none) }

/-- An empty context store and an empty trace. -/
def demo.world : World where
  config := { ActiveComponents := [] }
  calls := []

/-- The calls made between the world `w` and a later world `w'`. -/
def World.since (w' w : World) : List Call :=
  w'.calls.drop w.calls.length

/-- The example client whose platform delete fails. -/
def demo.clientDeleteFails : occlient.Client :=
  { demo.client with Delete := fun _ _ _ => ("", some "forbidden") }

/-- The example client whose `GetBuildConfig` succeeds with the build config `bc`. -/
def demo.clientWithBuildConfig (bc : buildv1.BuildConfig) : occlient.Client :=
  { demo.client with GetBuildConfig := fun _ _ => (some bc, none) }

/-- Modelled from the spec: `BuildSelector(mapping) → selector string`, the comma-joined
`key=value` pairs. -/
def platform.selectorOf : List (String × String) → String
  | [] => ""
  | [kv] => kv.1 ++ "=" ++ kv.2
  | kv :: rest => kv.1 ++ "=" ++ kv.2 ++ "," ++ platform.selectorOf rest

/-- Modelled from the spec: for the selector made of the pairs `pairs`, the platform behind
`client`, which holds the routes `routes`, returns exactly the routes whose labels satisfy
every `key=value` pair of the selector. -/
def platform.answers (client : occlient.Client) (routes : List routev1.Route)
    (pairs : List (String × String)) : Prop :=
  client.ListRoutes (platform.selectorOf pairs) =
    (routes.filter (fun r => pairs.all (fun kv => platform.labelled r.Labels kv.1 kv.2)), none)

/-- The URL (name, host) that `url.List` reports for a route. -/
def url.ofRoute (r : routev1.Route) : url.URL :=
  { Name := r.Name, URL := r.Host }

/-- A key or a value that can stand in a selector: it holds no comma, and a key no `=`. -/
def platform.safePair (kv : String × String) : Prop :=
  ',' ∉ kv.1.data ∧ '=' ∉ kv.1.data ∧ ',' ∉ kv.2.data

/-- An example environment in which the current application does not exist yet. -/
def demo.envNoApplication : Env :=
  { demo.env with application := { demo.application with Exists := fun _ _ => (false, none) } }

/-! ## Theorems -/

theorem errors.Wrap_none (message : String) : errors.Wrap none message = none := rfl

/-- Nil comes out of `errors.Wrap` exactly for a nil error. -/
@[simp] theorem errors.Wrap_eq_none_iff (err : GoError) (message : String) :
    errors.Wrap err message = none ↔ err = none := by
  cases err <;> simp [errors.Wrap]

/-- Nil comes out of `errors.Wrapf` exactly for a nil error. -/
@[simp] theorem errors.Wrapf_eq_none_iff (err : GoError) (formatted : String) :
    errors.Wrapf err formatted = none ↔ err = none := by
  simp [errors.Wrapf]

theorem component.GetComponentType.loop_none_err_of_differs (first : String)
    (l : List String) (h : ∃ x ∈ l, x ≠ first) :
    component.GetComponentType.loop first none l = some ("", none) := by
  induction l with
  | nil => obtain ⟨x, hx, _⟩ := h; cases hx
  | cons y ys ih =>
    unfold component.GetComponentType.loop
    by_cases hy : first = y
    · subst hy
      have : ∃ x ∈ ys, x ≠ first := by
        obtain ⟨x, hx, hne⟩ := h
        rcases List.mem_cons.mp hx with rfl | hx
        · exact absurd rfl hne
        · exact ⟨x, hx, hne⟩
      simp [ih this]
    · simp [hy, errors.Wrap]

theorem component.GetComponentType.loop_all_eq (first : String) (err : GoError)
    (l : List String) (h : ∀ x ∈ l, x = first) :
    component.GetComponentType.loop first err l = none := by
  induction l with
  | nil => rfl
  | cons y ys ih =>
    unfold component.GetComponentType.loop
    have hy : y = first := h y (List.mem_cons_self _ _)
    subst hy
    simp [ih (fun x hx => h x (List.mem_cons_of_mem _ hx))]

/-- Whenever the platform call succeeds with a list in which some value differs from the
first, `GetComponentType` returns the empty type with a nil error: `errors.Wrap` is applied
to the nil error of the successful call. -/
theorem component.GetComponentType_differs_returns_nil (env : Env) (client : occlient.Client)
    (componentName applicationName projectName : String) (w : World)
    (first : String) (rest : List String) (sel : String)
    (hsel : sel = component.ComponentLabel ++ "=" ++ componentName ++ "," ++
      env.application.ApplicationLabel ++ "=" ++ applicationName)
    (hcall : client.GetLabelValues projectName component.componentTypeLabel sel =
      (first :: rest, none))
    (hdiff : ∃ x ∈ rest, x ≠ first) :
    (component.GetComponentType env client componentName applicationName projectName w).1 =
      ("", none) := by
  subst hsel
  have hl : component.GetComponentType.loop first none (first :: rest) = some ("", none) :=
    component.GetComponentType.loop_none_err_of_differs first (first :: rest)
      (by obtain ⟨x, hx, hne⟩ := hdiff; exact ⟨x, List.mem_cons_of_mem _ hx, hne⟩)
  simp [component.GetComponentType, hcall, hl]

/-- C1 (the code departs from the claim): for the component-type values
`["nodejs", "python"]`, returned by a successful platform call, `GetComponentType` returns
the empty type with a nil error, where the claim requires a non-nil error. -/
theorem component.GetComponentType_mismatch_nil_error :
    (component.GetComponentType demo.env (demo.clientWithTypes ["nodejs", "python"])
      "backend" "myapp" "myproject" demo.world).1 = ("", none) := by
  decide

/-- C2: if the platform call of `GetComponentType` succeeds with a non-empty list of
component-type values all equal to `v`, then `GetComponentType` returns `v` with a nil
error. -/
theorem component.GetComponentType_consistent (env : Env) (client : occlient.Client)
    (componentName applicationName projectName : String) (w : World)
    (ctypes : List String) (v : String)
    (hcall : client.GetLabelValues projectName component.componentTypeLabel
      (component.ComponentLabel ++ "=" ++ componentName ++ "," ++
        env.application.ApplicationLabel ++ "=" ++ applicationName) = (ctypes, none))
    (hne : ctypes ≠ [])
    (hall : ∀ x ∈ ctypes, x = v) :
    (component.GetComponentType env client componentName applicationName projectName w).1 =
      (v, none) := by
  cases ctypes with
  | nil => exact absurd rfl hne
  | cons first rest =>
    have hf : first = v := hall first (List.mem_cons_self _ _)
    subst hf
    have hl := component.GetComponentType.loop_all_eq first none (first :: rest) hall
    simp [component.GetComponentType, hcall, hl]

/-- Witness of C2: three resources of type `nodejs`. -/
theorem component.GetComponentType_consistent_witness :
    (component.GetComponentType demo.env (demo.clientWithTypes ["nodejs", "nodejs", "nodejs"])
      "backend" "myapp" "myproject" demo.world).1 = ("nodejs", none) :=
  component.GetComponentType_consistent demo.env
    (demo.clientWithTypes ["nodejs", "nodejs", "nodejs"]) "backend" "myapp" "myproject"
    demo.world ["nodejs", "nodejs", "nodejs"] "nodejs" rfl (by decide) (by decide)

/-! ### The context store -/

theorem List.lookup_filter_key_ne {α β : Type} [BEq α] [LawfulBEq α] (k k' : α)
    (l : List (α × β)) (h : k ≠ k') :
    (l.filter (fun e => e.1 != k')).lookup k = l.lookup k := by
  induction l with
  | nil => rfl
  | cons e es ih =>
    obtain ⟨a, b⟩ := e
    by_cases ha : a = k'
    · subst ha
      have : (k == a) = false := by simpa using h
      simp [List.filter_cons, List.lookup_cons, this, ih]
    · have h1 : (a != k') = true := by simpa using ha
      simp only [List.filter_cons, h1, if_true, List.lookup_cons, ih]

/-- Reading the pair just written gives the written name. -/
theorem config.Config.GetActiveComponent_SetActiveComponent_same (cfg : config.Config)
    (name application project : String) :
    (cfg.SetActiveComponent name application project).GetActiveComponent application project =
      name := by
  simp [config.Config.GetActiveComponent, config.Config.SetActiveComponent, List.lookup_cons]

/-- Writing one pair leaves the entry of every other pair as it was. -/
theorem config.Config.GetActiveComponent_SetActiveComponent_other (cfg : config.Config)
    (name application project application' project' : String)
    (h : (application', project') ≠ (application, project)) :
    (cfg.SetActiveComponent name application project).GetActiveComponent application' project' =
      cfg.GetActiveComponent application' project' := by
  have hb : ((application', project') == (application, project)) = false := by
    simpa using h
  simp only [config.Config.GetActiveComponent, config.Config.SetActiveComponent,
    List.lookup_cons, hb, List.lookup_filter_key_ne _ _ _ h]

/-- With every collaborator succeeding and the current application `a` different from the
current project `p`, `Delete` clears the entry of the pair (application `p`, project `a`) and
`GetCurrent` still returns the name set before. -/
theorem component.GetCurrent_after_Delete_of_ne (env : Env) (client : occlient.Client)
    (x a p : String) (w : World)
    (hnew : env.configNew = none) (hsave : env.configSave = none)
    (hp : client.GetCurrentProjectName = (p, none))
    (ha : env.application.GetCurrent client = (a, none))
    (had : env.application.GetCurrentOrDefault client = (a, none))
    (hl : (env.application.GetLabels a false).2 = none)
    (hd : ∀ labels, (client.Delete "all" "" labels).2 = none)
    (hne : a ≠ p) :
    (component.SetCurrent env client x w).1 = none ∧
    (component.Delete env client x (component.SetCurrent env client x w).2).1.2 = none ∧
    (component.GetCurrent env client
      (component.Delete env client x (component.SetCurrent env client x w).2).2).1 =
      (x, none) := by
  have hk : (a, p) ≠ (p, a) := by
    intro h
    exact hne (Prod.mk.inj h).1
  simp [component.SetCurrent, component.Delete, component.GetCurrent, component.GetLabels,
    config.ConfigInfo.SetActiveComponent, World.record, hnew, hsave, hp, ha, had, hl, hd,
    config.Config.GetActiveComponent_SetActiveComponent_other _ _ _ _ _ _ hk,
    config.Config.GetActiveComponent_SetActiveComponent_same]

/-- C3 (the code departs from the claim): with project `myproject` and application `myapp`,
after `SetCurrent("nodejs")` and `Delete("nodejs")` have both succeeded, `GetCurrent` returns
`"nodejs"`, not the empty string: `Delete` passes the project where the store expects the
application and the application where it expects the project. -/
theorem component.Delete_does_not_clear_current :
    (component.SetCurrent demo.env demo.client "nodejs" demo.world).1 = none ∧
    (component.Delete demo.env demo.client "nodejs"
      (component.SetCurrent demo.env demo.client "nodejs" demo.world).2).1.2 = none ∧
    (component.GetCurrent demo.env demo.client
      (component.Delete demo.env demo.client "nodejs"
        (component.SetCurrent demo.env demo.client "nodejs" demo.world).2).2).1 =
      ("nodejs", none) := by
  decide

/-! ### Deleting a component -/

/-- C4: if the platform delete call of `Delete` returns an error, `Delete` returns an error,
the context store is left as it was and `SetActiveComponent` is not invoked; and in every
run, `SetActiveComponent` is invoked (and the store changed) only after the platform delete
call was made and returned a nil error. -/
theorem component.Delete_platform_delete_error (env : Env) (client : occlient.Client)
    (name : String) (w : World) :
    ((client.Delete "all" ""
        (component.GetLabels env name (env.application.GetCurrentOrDefault client).1 false).1).2
        ≠ none →
      (component.Delete env client name w).1.2 ≠ none ∧
      (component.Delete env client name w).2.config = w.config ∧
      ∀ n a p, Call.SetActiveComponent n a p ∉ (component.Delete env client name w).2.since w) ∧
    (∀ n a p, Call.SetActiveComponent n a p ∈ (component.Delete env client name w).2.since w →
      ∃ labels, (client.Delete "all" "" labels).2 = none ∧
        (component.Delete env client name w).2.since w =
          [Call.applicationGetCurrentOrDefault, Call.GetCurrentProjectName, Call.configNew,
            Call.Delete "all" "" labels, Call.SetActiveComponent n a p]) ∧
    ((component.Delete env client name w).2.config ≠ w.config →
      ∃ n a p, Call.SetActiveComponent n a p ∈ (component.Delete env client name w).2.since w) := by
  generalize hr : component.Delete env client name w = r
  by_cases h1 : (env.application.GetCurrentOrDefault client).2 = none
  · by_cases h2 : client.GetCurrentProjectName.2 = none
    · by_cases h3 : env.configNew = none
      · by_cases h4 : (env.application.GetLabels (env.application.GetCurrentOrDefault client).1 false).2 = none
        · by_cases h5 : (client.Delete "all" ""
            ((env.application.GetLabels (env.application.GetCurrentOrDefault client).1 false).1.set
              component.ComponentLabel name)).2 = none
          · by_cases h6 : env.configSave = none
            · simp [component.Delete, component.GetLabels, config.ConfigInfo.SetActiveComponent, World.record, h1, h2, h3, h4, h5, h6] at hr
              subst hr
              simp [World.since, h5, component.GetLabels, h4]
              rintro n a p rfl rfl rfl
              exact ⟨_, h5, rfl, rfl, rfl, rfl⟩
            · simp [component.Delete, component.GetLabels, config.ConfigInfo.SetActiveComponent, World.record, h1, h2, h3, h4, h5, h6] at hr
              subst hr
              simp [World.since, h5, component.GetLabels, h4]
              rintro n a p rfl rfl rfl
              exact ⟨_, h5, rfl, rfl, rfl, rfl⟩
          · simp [component.Delete, component.GetLabels, config.ConfigInfo.SetActiveComponent, World.record, h1, h2, h3, h4, h5] at hr
            subst hr
            simp [World.since, h5, component.GetLabels, h4]
        · simp [component.Delete, component.GetLabels, config.ConfigInfo.SetActiveComponent, World.record, h1, h2, h3, h4] at hr
          subst hr
          simp [World.since, component.GetLabels, h4]
      · simp [component.Delete, component.GetLabels, config.ConfigInfo.SetActiveComponent, World.record, h1, h2, h3] at hr
        subst hr
        simp [World.since, h3]
    · simp [component.Delete, component.GetLabels, config.ConfigInfo.SetActiveComponent, World.record, h1, h2] at hr
      subst hr
      simp [World.since, h2]
  · simp [component.Delete, component.GetLabels, config.ConfigInfo.SetActiveComponent, World.record, h1] at hr
    subst hr
    simp [World.since, h1]

/-- Witness of C4: the platform delete of the example client fails with `forbidden`. -/
theorem component.Delete_platform_delete_error_witness :
    (component.Delete demo.env demo.clientDeleteFails "nodejs" demo.world).1.2 ≠ none ∧
    (component.Delete demo.env demo.clientDeleteFails "nodejs" demo.world).2.config =
      demo.world.config ∧
    ∀ n a p, Call.SetActiveComponent n a p ∉
      (component.Delete demo.env demo.clientDeleteFails "nodejs" demo.world).2.since demo.world :=
  (component.Delete_platform_delete_error demo.env demo.clientDeleteFails "nodejs"
    demo.world).1 (by decide)

/-! ### Resolving the current component -/

/-- C5 (counterexample): with an empty context store, the entry of (`myapp`, `myproject`) is
empty and `GetCurrent` returns the empty string with a nil error: it does not fail. -/
theorem component.GetCurrent_no_entry_returns_nil_error :
    demo.world.config.GetActiveComponent "myapp" "myproject" = "" ∧
    (component.GetCurrent demo.env demo.client demo.world).1 = ("", none) := by
  decide

/-- The calls made before `url.Create` stay in the trace. -/
theorem url.Create_calls_mono (env : Env) (client : occlient.Client) (cmp : String)
    (w : World) (c : Call) (hc : c ∈ w.calls) : c ∈ (url.Create env client cmp w).2.calls := by
  rcases h1 : env.application.GetCurrentOrDefault client with ⟨app, _ | e1⟩
  · rcases h2 : env.application.GetLabels app false with ⟨labels, _ | e2⟩
    · rcases h3 : client.CreateRoute cmp (labels.set component.ComponentLabel cmp) with
        ⟨_ | route, _ | e3⟩ <;>
      simp [url.Create, component.GetLabels, World.record, h1, h2, h3, hc]
    · simp [url.Create, component.GetLabels, World.record, h1, h2, hc]
  · simp [url.Create, World.record, h1, hc]

/-- When the current application and the labels are available, `url.Create` asks the
platform to create a route for `cmp` with the labels of `GetLabels`. -/
theorem url.Create_calls_CreateRoute (env : Env) (client : occlient.Client) (cmp a : String)
    (w : World) (ha : env.application.GetCurrentOrDefault client = (a, none))
    (hl : (env.application.GetLabels a false).2 = none) :
    Call.CreateRoute cmp ((env.application.GetLabels a false).1.set component.ComponentLabel cmp)
      ∈ (url.Create env client cmp w).2.calls := by
  rcases h3 : client.CreateRoute cmp
      ((env.application.GetLabels a false).1.set component.ComponentLabel cmp) with
    ⟨_ | route, _ | e3⟩ <;>
  simp [url.Create, component.GetLabels, World.record, ha, hl, h3]

/-- The calls of `url.Create` stay in the trace of the command. -/
theorem cmd.urlCreateCmd.Run.create_calls (env : Env) (client : occlient.Client)
    (cmp : String) (w : World) (c : Call)
    (hc : c ∈ (url.Create env client cmp
      (w.record (Call.Print ("Adding URL to component: " ++ cmp ++ "\n")))).2.calls) :
    c ∈ (cmd.urlCreateCmd.Run.create env client cmp w).2.calls := by
  unfold cmd.urlCreateCmd.Run.create
  simp only []
  generalize url.Create env client cmp
    (w.record (Call.Print ("Adding URL to component: " ++ cmp ++ "\n"))) = r at hc ⊢
  rcases r with ⟨_ | ⟨_ | u, _ | e⟩, w'⟩ <;> simp_all [World.record]

/-- C5 (as amended): when the context store can be read, the current application `a` and
project `p` resolve and the store holds no active component for them, `GetCurrent` returns
the empty string with a nil error, and `url create` without a component argument goes on
with the empty component name: it announces it and, the labels being available, asks the
platform to create a route named `""`. -/
theorem component.GetCurrent_no_entry (env : Env) (client : occlient.Client) (w : World)
    (a p : String)
    (hnew : env.configNew = none)
    (ha : env.application.GetCurrentOrDefault client = (a, none))
    (hp : client.GetCurrentProjectName = (p, none))
    (hentry : w.config.GetActiveComponent a p = "") :
    (component.GetCurrent env client w).1 = ("", none) ∧
    Call.Print "Adding URL to component: \n" ∈ (cmd.urlCreateCmd.Run env client [] w).2.calls ∧
    ((env.application.GetLabels a false).2 = none →
      Call.CreateRoute "" ((env.application.GetLabels a false).1.set component.ComponentLabel "")
        ∈ (cmd.urlCreateCmd.Run env client [] w).2.calls) := by
  have hg : (component.GetCurrent env client w).1 = ("", none) := by
    simp [component.GetCurrent, hnew, ha, hp, hentry]
  have hrun : cmd.urlCreateCmd.Run env client [] w =
      cmd.urlCreateCmd.Run.create env client "" (component.GetCurrent env client w).2 := by
    simp [cmd.urlCreateCmd.Run, hg]
  rw [hrun]
  refine ⟨hg, ?_, ?_⟩
  · apply cmd.urlCreateCmd.Run.create_calls
    apply url.Create_calls_mono
    simp [World.record]
  · intro hl
    apply cmd.urlCreateCmd.Run.create_calls
    exact url.Create_calls_CreateRoute env client "" a _ ha hl

/-- Witness of C5 (as amended): the example collaborators and the empty context store. -/
theorem component.GetCurrent_no_entry_witness :
    (component.GetCurrent demo.env demo.client demo.world).1 = ("", none) ∧
    Call.Print "Adding URL to component: \n" ∈
      (cmd.urlCreateCmd.Run demo.env demo.client [] demo.world).2.calls ∧
    ((demo.env.application.GetLabels "myapp" false).2 = none →
      Call.CreateRoute ""
        ((demo.env.application.GetLabels "myapp" false).1.set component.ComponentLabel "")
        ∈ (cmd.urlCreateCmd.Run demo.env demo.client [] demo.world).2.calls) :=
  component.GetCurrent_no_entry demo.env demo.client demo.world "myapp" "myproject"
    rfl rfl rfl (by decide)

/-! ### The source of a component -/

/-- Every new-app call that `CreateFromDir` makes carries exactly one piece of provenance:
the string form of the `file` URL of the directory, under the source-url key. -/
theorem component.CreateFromDir_recorded_source (env : Env) (client : occlient.Client)
    (name ctype dir : String) (w : World) (n c g : String) (l ann : GoMap)
    (h : Call.NewAppS2I n c g l ann ∈
      (component.CreateFromDir env client name ctype dir w).2.since w) :
    ann = [(component.componentSourceURLAnnotation,
      ({ Scheme := "file", Path := dir } : neturl.URL).String)] := by
  revert h
  rcases h1 : env.application.GetCurrentOrDefault client with ⟨a, _ | e1⟩
  · rcases h2 : env.application.Exists client a with ⟨b, _ | e2⟩
    · rcases h4 : env.application.GetLabels a true with ⟨labels, _ | e4⟩
      · rcases h3 : env.application.Create client a with _ | e3 <;>
        rcases h5 : client.NewAppS2I name ctype ""
          ((labels.set component.ComponentLabel name).set component.componentTypeLabel ctype)
          [(component.componentSourceURLAnnotation,
            ({ Scheme := "file", Path := dir } : neturl.URL).String)] with ⟨out, _ | e5⟩ <;>
        rcases h6 : client.StartBinaryBuild name dir with _ | e6 <;>
        cases b <;>
        simp [component.CreateFromDir, component.CreateFromDir.finish, component.GetLabels,
          World.record, World.since, h1, h2, h3, h4, h5, h6]
      · rcases h3 : env.application.Create client a with _ | e3 <;>
        cases b <;>
        simp [component.CreateFromDir, component.CreateFromDir.finish, component.GetLabels,
          World.record, World.since, h1, h2, h3, h4]
    · simp [component.CreateFromDir, World.record, World.since, h1, h2]
  · simp [component.CreateFromDir, World.record, World.since, h1]

/-- The string form of the `file` URL of an absolute path is `file://` followed by the
escaped path. -/
theorem neturl.String_file_absolute (dir : String) (habs : dir.data.head? = some '/') :
    ({ Scheme := "file", Path := dir } : neturl.URL).String = "file://" ++ neturl.escape dir := by
  have hne : dir ≠ "" := by
    intro h; subst h; simp at habs
  have hstar : dir ≠ "*" := by
    intro h; subst h; simp at habs
  have h1 : ("file" : String) ≠ "" := by decide
  have h2 : ("file://" : String).length ≠ 0 := by decide
  have h3 : ("file" : String) ++ ":" ++ "//" = "file://" := by decide
  simp only [neturl.URL.String, neturl.URL.EscapedPath, hne, hstar, h1, h2, h3, ne_eq,
    not_false_eq_true, if_true, if_false]

/-- A string that starts with `file://` is not an absolute path. -/
theorem neturl.file_url_ne_absolute (dir rest : String) (habs : dir.data.head? = some '/') :
    "file://" ++ rest ≠ dir := by
  intro h
  subst h
  simp at habs

/-- C6 (the code departs from the claim): for the directory `/home/u/proj`, `CreateFromDir`
records the source-url value `file:///home/u/proj`, and on a Binary build config carrying it
`GetComponentSource` returns `("local", "file:///home/u/proj")` with a nil error: the source
path returned is the `file` URL, not the directory `/home/u/proj` that the claim, and the
doc comment of `GetComponentSource` ("local path"), require. -/
theorem component.GetComponentSource_local_not_dir :
    Call.NewAppS2I "nodejs" "nodejs" ""
        [("app.kubernetes.io/component-type", "nodejs"),
          ("app.kubernetes.io/component-name", "nodejs"), ("app.kubernetes.io/name", "myapp")]
        [(component.componentSourceURLAnnotation, "file:///home/u/proj")] ∈
      (component.CreateFromDir demo.env demo.client "nodejs" "nodejs" "/home/u/proj"
        demo.world).2.calls ∧
    (component.GetComponentSource
      (demo.clientWithBuildConfig
        { Annotations := [(component.componentSourceURLAnnotation, "file:///home/u/proj")],
          Source := { Type_ := buildv1.BuildSourceBinary, Git := none } })
      "nodejs" "myapp" "myproject" demo.world).1 = some ("local", "file:///home/u/proj", none) ∧
    ("file:///home/u/proj" : String) ≠ "/home/u/proj" := by
  decide

/-- The general form of the departure shown at `/home/u/proj`: for every absolute directory
path `d`, if the source-url value that `CreateFromDir` records for `d` (the annotations of
its new-app call) is carried by a successfully fetched build config whose source type is
Binary, then `GetComponentSource` returns the source type `local` and, as source path, the
recorded value itself: the `file` URL `file://` followed by the escaped `d`, which is never
`d`. -/
theorem component.GetComponentSource_local_roundtrip (env : Env)
    (client client' : occlient.Client) (name ctype d : String) (w w' : World)
    (n c g : String) (l ann : GoMap) (bc : buildv1.BuildConfig)
    (componentName applicationName projectName : String)
    (habs : d.data.head? = some '/')
    (hrec : Call.NewAppS2I n c g l ann ∈
      (component.CreateFromDir env client name ctype d w).2.since w)
    (hfetch : client'.GetBuildConfig componentName projectName = (some bc, none))
    (hty : bc.Source.Type_ = buildv1.BuildSourceBinary)
    (hcarried : bc.Annotations.get component.componentSourceURLAnnotation =
      ann.get component.componentSourceURLAnnotation) :
    (component.GetComponentSource client' componentName applicationName projectName w').1 =
      some ("local", "file://" ++ neturl.escape d, none) ∧
    "file://" ++ neturl.escape d ≠ d := by
  have hann := component.CreateFromDir_recorded_source env client name ctype d w n c g l ann hrec
  have hval : bc.Annotations.get component.componentSourceURLAnnotation =
      "file://" ++ neturl.escape d := by
    rw [hcarried, hann, neturl.String_file_absolute d habs]
    simp [GoMap.get, List.lookup_cons]
  have hne : "file://" ++ neturl.escape d ≠ "" := by
    intro h
    have := congrArg String.length h
    simp at this
    exact absurd this.1 (by decide)
  have hbin : buildv1.BuildSourceBinary ≠ buildv1.BuildSourceGit := by decide
  refine ⟨?_, neturl.file_url_ne_absolute d _ habs⟩
  simp [component.GetComponentSource, hfetch, hty, hbin, hval, hne, World.record]

/-- The general form above at the directory `/home/u/proj`. -/
theorem component.GetComponentSource_local_roundtrip_witness :
    (component.GetComponentSource
      (demo.clientWithBuildConfig
        { Annotations := [(component.componentSourceURLAnnotation, "file:///home/u/proj")],
          Source := { Type_ := buildv1.BuildSourceBinary, Git := none } })
      "nodejs" "myapp" "myproject" demo.world).1 =
      some ("local", "file://" ++ neturl.escape "/home/u/proj", none) ∧
    "file://" ++ neturl.escape "/home/u/proj" ≠ "/home/u/proj" :=
  component.GetComponentSource_local_roundtrip demo.env demo.client
    (demo.clientWithBuildConfig
      { Annotations := [(component.componentSourceURLAnnotation, "file:///home/u/proj")],
        Source := { Type_ := buildv1.BuildSourceBinary, Git := none } })
    "nodejs" "nodejs" "/home/u/proj" demo.world demo.world
    "nodejs" "nodejs" ""
    [("app.kubernetes.io/component-type", "nodejs"),
      ("app.kubernetes.io/component-name", "nodejs"), ("app.kubernetes.io/name", "myapp")]
    [(component.componentSourceURLAnnotation, "file:///home/u/proj")]
    { Annotations := [(component.componentSourceURLAnnotation, "file:///home/u/proj")],
      Source := { Type_ := buildv1.BuildSourceBinary, Git := none } }
    "nodejs" "myapp" "myproject"
    (by decide) (by decide) rfl rfl (by decide)

/-! ### Implicit application creation -/

/-- The calls of `CreateFromGit` once the application is resolved and `Exists` answered. -/
theorem component.CreateFromGit_trace (env : Env) (client : occlient.Client)
    (name ctype url : String) (w : World) (a : String) (b : Bool)
    (ha : env.application.GetCurrentOrDefault client = (a, none))
    (he : env.application.Exists client a = (b, none)) :
    ∃ rest, (component.CreateFromGit env client name ctype url w).2.since w =
        Call.applicationGetCurrentOrDefault :: Call.applicationExists a ::
          ((if b then [] else [Call.applicationCreate a]) ++ rest) ∧
      (∀ x, Call.applicationCreate x ∉ rest) ∧
      (b = false → env.application.Create client a ≠ none →
        rest = [] ∧ (component.CreateFromGit env client name ctype url w).1.2 ≠ none) := by
  rcases h4 : env.application.GetLabels a true with ⟨labels, _ | e4⟩ <;>
  rcases h3 : env.application.Create client a with _ | e3 <;>
  rcases h5 : client.NewAppS2I name ctype url
    ((labels.set component.ComponentLabel name).set component.componentTypeLabel ctype)
    [(component.componentSourceURLAnnotation, url)] with ⟨out, _ | e5⟩ <;>
  cases b <;>
  simp [component.CreateFromGit, component.CreateFromGit.finish, component.GetLabels,
    World.record, World.since, ha, he, h3, h4, h5]

/-- The calls of `CreateFromDir` once the application is resolved and `Exists` answered. -/
theorem component.CreateFromDir_trace (env : Env) (client : occlient.Client)
    (name ctype dir : String) (w : World) (a : String) (b : Bool)
    (ha : env.application.GetCurrentOrDefault client = (a, none))
    (he : env.application.Exists client a = (b, none)) :
    ∃ rest, (component.CreateFromDir env client name ctype dir w).2.since w =
        Call.applicationGetCurrentOrDefault :: Call.applicationExists a ::
          ((if b then [] else [Call.applicationCreate a]) ++ rest) ∧
      (∀ x, Call.applicationCreate x ∉ rest) ∧
      (b = false → env.application.Create client a ≠ none →
        rest = [] ∧ (component.CreateFromDir env client name ctype dir w).1.2 ≠ none) := by
  rcases h4 : env.application.GetLabels a true with ⟨labels, _ | e4⟩ <;>
  rcases h3 : env.application.Create client a with _ | e3 <;>
  rcases h5 : client.NewAppS2I name ctype ""
    ((labels.set component.ComponentLabel name).set component.componentTypeLabel ctype)
    [(component.componentSourceURLAnnotation,
      ({ Scheme := "file", Path := dir } : neturl.URL).String)] with ⟨out, _ | e5⟩ <;>
  rcases h6 : client.StartBinaryBuild name dir with _ | e6 <;>
  cases b <;>
  simp [component.CreateFromDir, component.CreateFromDir.finish, component.GetLabels,
    World.record, World.since, ha, he, h3, h4, h5, h6]

/-- In a trace that starts with the two calls `c1`, `c2`, a call different from both is
found in the rest, and what follows it follows it there. -/
theorem List.split_after_two {α : Type} (c1 c2 x : α) (rest pre post : List α)
    (h : c1 :: c2 :: rest = pre ++ x :: post) (h1 : x ≠ c1) (h2 : x ≠ c2) :
    ∃ pre', pre = c1 :: c2 :: pre' ∧ rest = pre' ++ x :: post := by
  rcases pre with _ | ⟨p1, _ | ⟨p2, pre⟩⟩
  · simp at h; exact absurd h.1.symm h1
  · simp at h; exact absurd h.2.1.symm h2
  · simp at h
    exact ⟨pre, by simp [h.1, h.2.1], h.2.2⟩

/-- In a trace that starts with the three calls `c1`, `c2`, `c3`, a call different from all
three is found in the rest, and what follows it follows it there. -/
theorem List.split_after_three {α : Type} (c1 c2 c3 x : α) (rest pre post : List α)
    (h : c1 :: c2 :: c3 :: rest = pre ++ x :: post)
    (h1 : x ≠ c1) (h2 : x ≠ c2) (h3 : x ≠ c3) :
    ∃ pre', pre = c1 :: c2 :: c3 :: pre' ∧ rest = pre' ++ x :: post := by
  obtain ⟨pre1, hp1, hr1⟩ := List.split_after_two c1 c2 x (c3 :: rest) pre post h h1 h2
  rcases pre1 with _ | ⟨p3, pre1⟩
  · simp at hr1; exact absurd hr1.1.symm h3
  · simp at hr1
    exact ⟨pre1, by simp [hp1, hr1.1], hr1.2⟩

/-- The three properties of implicit application creation, from the shape of the trace. -/
theorem component.implicit_creation_of_trace (a : String) (b : Bool) (createErr err : GoError)
    (calls : List Call)
    (h : ∃ rest, calls =
        Call.applicationGetCurrentOrDefault :: Call.applicationExists a ::
          ((if b then [] else [Call.applicationCreate a]) ++ rest) ∧
      (∀ x, Call.applicationCreate x ∉ rest) ∧
      (b = false → createErr ≠ none → rest = [] ∧ err ≠ none)) :
    (Call.applicationCreate a ∈ calls ↔ b = false) ∧
    (∀ pre post n t g l an, calls = pre ++ Call.NewAppS2I n t g l an :: post →
      (b = false → Call.applicationCreate a ∈ pre) ∧
      (∀ x, Call.applicationCreate x ∉ post)) ∧
    (b = false → createErr ≠ none →
      (∀ n t g l an, Call.NewAppS2I n t g l an ∉ calls) ∧ err ≠ none) := by
  obtain ⟨rest, hcalls, hrest, hfail⟩ := h
  subst hcalls
  refine ⟨?_, ?_, ?_⟩
  · cases b <;> simp [hrest]
  · intro pre post n t g l an hsplit
    cases b
    · obtain ⟨pre', hpre, hr⟩ := List.split_after_three _ _ _ _ rest pre post hsplit
        (by simp) (by simp) (by simp)
      refine ⟨fun _ => by simp [hpre], fun x hx => hrest x ?_⟩
      simp [hr, hx]
    · obtain ⟨pre', _, hr⟩ := List.split_after_two _ _ _ rest pre post hsplit
        (by simp) (by simp)
      refine ⟨fun hb => by simp at hb, fun x hx => hrest x ?_⟩
      simp [hr, hx]
  · intro hb hc
    obtain ⟨hr, he⟩ := hfail hb hc
    subst hr
    subst hb
    simp [he]

/-- C7: in `CreateFromGit` and in `CreateFromDir`, once the current-or-default application
`a` is resolved and `application.Exists(a)` has answered `b`: `application.Create(a)` is
among the calls made exactly when `b` is false; it comes before every new-app platform call
and never after one; and if it fails, no new-app platform call is made and an error is
returned. -/
theorem component.Create_implicit_application (env : Env) (client : occlient.Client)
    (name ctype source : String) (w : World) (a : String) (b : Bool)
    (ha : env.application.GetCurrentOrDefault client = (a, none))
    (he : env.application.Exists client a = (b, none)) :
    ((Call.applicationCreate a ∈ (component.CreateFromGit env client name ctype source w).2.since w
        ↔ b = false) ∧
      (∀ pre post n t g l an,
        (component.CreateFromGit env client name ctype source w).2.since w =
          pre ++ Call.NewAppS2I n t g l an :: post →
        (b = false → Call.applicationCreate a ∈ pre) ∧
        (∀ x, Call.applicationCreate x ∉ post)) ∧
      (b = false → env.application.Create client a ≠ none →
        (∀ n t g l an, Call.NewAppS2I n t g l an ∉
          (component.CreateFromGit env client name ctype source w).2.since w) ∧
        (component.CreateFromGit env client name ctype source w).1.2 ≠ none)) ∧
    ((Call.applicationCreate a ∈ (component.CreateFromDir env client name ctype source w).2.since w
        ↔ b = false) ∧
      (∀ pre post n t g l an,
        (component.CreateFromDir env client name ctype source w).2.since w =
          pre ++ Call.NewAppS2I n t g l an :: post →
        (b = false → Call.applicationCreate a ∈ pre) ∧
        (∀ x, Call.applicationCreate x ∉ post)) ∧
      (b = false → env.application.Create client a ≠ none →
        (∀ n t g l an, Call.NewAppS2I n t g l an ∉
          (component.CreateFromDir env client name ctype source w).2.since w) ∧
        (component.CreateFromDir env client name ctype source w).1.2 ≠ none)) :=
  ⟨component.implicit_creation_of_trace a b _ _ _
      (component.CreateFromGit_trace env client name ctype source w a b ha he),
    component.implicit_creation_of_trace a b _ _ _
      (component.CreateFromDir_trace env client name ctype source w a b ha he)⟩

/-- Witness of C7: the application `myapp` does not exist and is created first. -/
theorem component.Create_implicit_application_witness :
    demo.envNoApplication.application.GetCurrentOrDefault demo.client = ("myapp", none) ∧
    demo.envNoApplication.application.Exists demo.client "myapp" = (false, none) ∧
    Call.applicationCreate "myapp" ∈
      (component.CreateFromGit demo.envNoApplication demo.client "nodejs" "nodejs"
        "https://example.com/r.git" demo.world).2.since demo.world ∧
    Call.applicationCreate "myapp" ∈
      (component.CreateFromDir demo.envNoApplication demo.client "nodejs" "nodejs"
        "https://example.com/r.git" demo.world).2.since demo.world :=
  ⟨rfl, rfl,
    (component.Create_implicit_application demo.envNoApplication demo.client "nodejs" "nodejs"
      "https://example.com/r.git" demo.world "myapp" false rfl rfl).1.1.mpr rfl,
    (component.Create_implicit_application demo.envNoApplication demo.client "nodejs" "nodejs"
      "https://example.com/r.git" demo.world "myapp" false rfl rfl).2.1.mpr rfl⟩

/-! ### Listing URLs -/

/-- The selector that `url.List` sends, and nothing else, is what it asks the platform. -/
theorem url_List_calls (env : Env) (client : occlient.Client) (c a : String) (w : World) :
    (url.List env client c a w).2.since w =
      [Call.ListRoutes (if c = "" then env.application.ApplicationLabel ++ "=" ++ a
        else env.application.ApplicationLabel ++ "=" ++ a ++ "," ++
          component.ComponentLabel ++ "=" ++ c)] := by
  unfold url.List
  simp only []
  split_ifs <;> simp_all [World.since, World.record, String.append_assoc]

/-- The result of `url.List` is the answer of the platform to that selector, each route
reported as (name, host). -/
theorem url_List_result (env : Env) (client : occlient.Client) (c a : String) (w : World)
    (routes : List routev1.Route)
    (h : client.ListRoutes (if c = "" then env.application.ApplicationLabel ++ "=" ++ a
        else env.application.ApplicationLabel ++ "=" ++ a ++ "," ++
          component.ComponentLabel ++ "=" ++ c) = (routes, none)) :
    (url.List env client c a w).1 = (routes.map url.ofRoute, none) := by
  by_cases hc : c = ""
  · simp only [hc, if_true] at h
    simp [url.List, hc, h, url.ofRoute]
  · simp only [hc, if_false] at h
    have h' : client.ListRoutes (env.application.ApplicationLabel ++ "=" ++ a ++
        ("," ++ component.ComponentLabel ++ "=" ++ c)) = (routes, none) := by
      rw [← h]; simp [String.append_assoc]
    simp [url.List, hc, h', url.ofRoute]

theorem platform.splitComma_of_not_mem (k : List Char) (h : ',' ∉ k) :
    platform.splitComma k = [k] := by
  induction k with
  | nil => rfl
  | cons c cs ih =>
    have hc : c ≠ ',' := fun e => h (by simp [e])
    have hcs : ',' ∉ cs := fun e => h (List.mem_cons_of_mem _ e)
    simp [platform.splitComma, hc, ih hcs]

theorem platform.splitComma_append (k rest : List Char) (h : ',' ∉ k) :
    platform.splitComma (k ++ ',' :: rest) = k :: platform.splitComma rest := by
  induction k with
  | nil => simp [platform.splitComma]
  | cons c cs ih =>
    have hc : c ≠ ',' := fun e => h (by simp [e])
    have hcs : ',' ∉ cs := fun e => h (List.mem_cons_of_mem _ e)
    simp [platform.splitComma, hc, ih hcs]

theorem platform.splitPair_append (k v : List Char) (h : '=' ∉ k) :
    platform.splitPair (k ++ '=' :: v) = some (k, v) := by
  induction k with
  | nil => simp [platform.splitPair]
  | cons c cs ih =>
    have hc : c ≠ '=' := fun e => h (by simp [e])
    have hcs : '=' ∉ cs := fun e => h (List.mem_cons_of_mem _ e)
    simp [platform.splitPair, hc, ih hcs]

/-- Selector round trip: the pairs read back from the selector made of pairs that can
stand in a selector are those pairs. -/
theorem platform.parseSelector_selectorOf (pairs : List (String × String))
    (h : ∀ kv ∈ pairs, platform.safePair kv) :
    platform.parseSelector (platform.selectorOf pairs) = pairs := by
  induction pairs with
  | nil => simp [platform.parseSelector, platform.selectorOf, platform.splitComma,
      platform.splitPair]
  | cons kv rest ih =>
    obtain ⟨hk1, hk2, hv⟩ := h kv (List.mem_cons_self _ _)
    have hpiece : ',' ∉ kv.1.data ++ '=' :: kv.2.data := by
      simp [hk1, hv]
    have hrest := ih (fun x hx => h x (List.mem_cons_of_mem _ hx))
    cases rest with
    | nil =>
      simp [platform.parseSelector, platform.selectorOf, String.data_append,
        platform.splitComma_of_not_mem _ hpiece, platform.splitPair_append _ _ hk2]
    | cons r rs =>
      simp only [platform.parseSelector] at hrest
      have hassoc : (kv.1 ++ "=" ++ kv.2 ++ "," ++ platform.selectorOf (r :: rs)).data =
          (kv.1.data ++ '=' :: kv.2.data) ++ ',' :: (platform.selectorOf (r :: rs)).data := by
        simp [String.data_append]
      simp only [platform.parseSelector, platform.selectorOf, hassoc,
        platform.splitComma_append _ _ hpiece, List.filterMap_cons,
        platform.splitPair_append _ _ hk2, hrest]

/-- The platform that reads the selector answers, for pairs that can stand in a selector,
with exactly the routes whose labels satisfy every pair. -/
theorem platform.ListRoutes_answers (client : occlient.Client) (routes : List routev1.Route)
    (pairs : List (String × String))
    (hclient : client.ListRoutes = platform.ListRoutes routes)
    (h : ∀ kv ∈ pairs, platform.safePair kv) :
    platform.answers client routes pairs := by
  simp [platform.answers, hclient, platform.ListRoutes, platform.satisfies,
    platform.parseSelector_selectorOf pairs h]

/-- C8: `url.List` makes one platform call, `ListRoutes`, with the selector
`<ApplicationLabel>=a` when `c` is empty and `<ApplicationLabel>=a,<ComponentLabel>=c` when it
is not; hence, over a platform that returns exactly the routes whose labels satisfy every
`key=value` pair of these selectors, `List("", a)` returns the URL (name, host) of every route
labelled `application=a` and `List(c, a)`, for a non-empty `c`, those of exactly the routes
among them that are also labelled `component=c`. -/
theorem url_List_by_selector (env : Env) (client : occlient.Client) (c a : String) (w : World)
    (routes : List routev1.Route) :
    (url.List env client c a w).2.since w =
      [Call.ListRoutes (if c = "" then env.application.ApplicationLabel ++ "=" ++ a
        else env.application.ApplicationLabel ++ "=" ++ a ++ "," ++
          component.ComponentLabel ++ "=" ++ c)] ∧
    (platform.answers client routes [(env.application.ApplicationLabel, a)] →
      (url.List env client "" a w).1 =
        ((routes.filter (fun r =>
          platform.labelled r.Labels env.application.ApplicationLabel a)).map url.ofRoute,
          none)) ∧
    (c ≠ "" →
      platform.answers client routes
        [(env.application.ApplicationLabel, a), (component.ComponentLabel, c)] →
      (url.List env client c a w).1 =
        (((routes.filter (fun r =>
          platform.labelled r.Labels env.application.ApplicationLabel a)).filter (fun r =>
          platform.labelled r.Labels component.ComponentLabel c)).map url.ofRoute,
          none)) := by
  refine ⟨url_List_calls env client c a w, fun h1 => ?_, fun hc h2 => ?_⟩
  · have h := url_List_result env client "" a w
      (routes.filter (fun r => platform.labelled r.Labels env.application.ApplicationLabel a))
      (by simpa [platform.answers, platform.selectorOf] using h1)
    exact h
  · have h := url_List_result env client c a w
      ((routes.filter (fun r =>
        platform.labelled r.Labels env.application.ApplicationLabel a)).filter (fun r =>
        platform.labelled r.Labels component.ComponentLabel c))
      (by simpa [platform.answers, platform.selectorOf, hc, String.append_assoc,
        List.filter_filter, Bool.and_comm] using h2)
    exact h

/-- Witness of C8: the platform that reads the selector, holding three routes, asked for
application `demo` and component `api`. -/
theorem url_List_by_selector_witness :
    (url.List demo.env demo.client "" "demo" demo.world).1 =
      ((demo.routes.filter (fun r =>
        platform.labelled r.Labels "app.kubernetes.io/name" "demo")).map url.ofRoute, none) ∧
    (url.List demo.env demo.client "api" "demo" demo.world).1 =
      (((demo.routes.filter (fun r =>
        platform.labelled r.Labels "app.kubernetes.io/name" "demo")).filter (fun r =>
        platform.labelled r.Labels component.ComponentLabel "api")).map url.ofRoute, none) :=
  ⟨(url_List_by_selector demo.env demo.client "api" "demo" demo.world demo.routes).2.1
      (platform.ListRoutes_answers demo.client demo.routes _ rfl (by
        intro kv hkv
        simp only [List.mem_singleton] at hkv
        subst hkv
        unfold platform.safePair
        decide)),
    (url_List_by_selector demo.env demo.client "api" "demo" demo.world demo.routes).2.2
      (by decide)
      (platform.ListRoutes_answers demo.client demo.routes _ rfl (by
        intro kv hkv
        simp only [List.mem_cons, List.mem_singleton, List.not_mem_nil, or_false] at hkv
        rcases hkv with rfl | rfl <;> (unfold platform.safePair; decide)))⟩

/-! ### The labels of a component -/

theorem GoMap.lookup_set_same (m : GoMap) (k v : String) : (m.set k v).lookup k = some v := by
  simp [GoMap.set, List.lookup_cons]

theorem GoMap.lookup_set_other (m : GoMap) (k k' v : String) (h : k' ≠ k) :
    (m.set k v).lookup k' = m.lookup k' := by
  have hb : (k' == k) = false := by simpa using h
  simp only [GoMap.set, List.lookup_cons, hb, List.lookup_filter_key_ne _ _ _ h]

/-- C9 (counterexample): without a component name (`componentName = ""`) the mapping returned
by `GetLabels` still holds the component label key, mapped to the empty string. -/
theorem component.GetLabels_empty_name_has_component_label :
    (component.GetLabels demo.env "" "myapp" false).2 = none ∧
    (component.GetLabels demo.env "" "myapp" false).1.has component.ComponentLabel = true ∧
    (component.GetLabels demo.env "" "myapp" false).1.lookup component.ComponentLabel =
      some "" := by
  decide

/-- C9 (as amended): whenever `application.GetLabels` succeeds, the mapping returned by
`component.GetLabels` holds the component label key, mapped to `componentName`, whether the
name is empty or not (for the empty name the key is present with the empty value), and
holds under every other key what `application.GetLabels` returned. -/
theorem component.GetLabels_component_label (env : Env) (componentName applicationName : String)
    (additional : Bool)
    (h : (env.application.GetLabels applicationName additional).2 = none) :
    (component.GetLabels env componentName applicationName additional).2 = none ∧
    (component.GetLabels env componentName applicationName additional).1.has
      component.ComponentLabel = true ∧
    (component.GetLabels env componentName applicationName additional).1.lookup
      component.ComponentLabel = some componentName ∧
    ∀ k, k ≠ component.ComponentLabel →
      (component.GetLabels env componentName applicationName additional).1.lookup k =
        (env.application.GetLabels applicationName additional).1.lookup k := by
  simp only [component.GetLabels, h, ne_eq, not_true_eq_false, if_false, GoMap.has,
    GoMap.lookup_set_same, Option.isSome_some, true_and]
  intro k hk
  exact GoMap.lookup_set_other _ _ _ _ hk

/-- Witness of C9 (as amended): the component `nodejs` of application `myapp`. -/
theorem component.GetLabels_component_label_witness :
    (component.GetLabels demo.env "nodejs" "myapp" true).2 = none ∧
    (component.GetLabels demo.env "nodejs" "myapp" true).1.has component.ComponentLabel = true ∧
    (component.GetLabels demo.env "nodejs" "myapp" true).1.lookup component.ComponentLabel =
      some "nodejs" ∧
    ∀ k, k ≠ component.ComponentLabel →
      (component.GetLabels demo.env "nodejs" "myapp" true).1.lookup k =
        (demo.env.application.GetLabels "myapp" true).1.lookup k :=
  component.GetLabels_component_label demo.env "nodejs" "myapp" true rfl

/-! ### The source of a component, case by case -/

/-- C10: for a build config `bc` successfully fetched by `GetComponentSource`: if its source
type is Git, the result is `("git", URI)` with no error, `URI` being the URI of its Git
source; if its source type is Binary and its source-url annotation is not empty, the result
is `("local", that value)` with no error; in every other case (Binary with a missing or
empty annotation, any other source type) the result is an error with both strings empty. -/
theorem component.GetComponentSource_cases (client : occlient.Client)
    (componentName applicationName projectName : String) (w : World)
    (bc : buildv1.BuildConfig)
    (hfetch : client.GetBuildConfig componentName projectName = (some bc, none)) :
    (∀ git, bc.Source.Type_ = buildv1.BuildSourceGit → bc.Source.Git = some git →
      (component.GetComponentSource client componentName applicationName projectName w).1 =
        some ("git", git.URI, none)) ∧
    (bc.Source.Type_ = buildv1.BuildSourceBinary →
      bc.Annotations.get component.componentSourceURLAnnotation ≠ "" →
      (component.GetComponentSource client componentName applicationName projectName w).1 =
        some ("local", bc.Annotations.get component.componentSourceURLAnnotation, none)) ∧
    ((bc.Source.Type_ = buildv1.BuildSourceBinary ∧
        bc.Annotations.get component.componentSourceURLAnnotation = "") ∨
      (bc.Source.Type_ ≠ buildv1.BuildSourceGit ∧
        bc.Source.Type_ ≠ buildv1.BuildSourceBinary) →
      ∃ e, (component.GetComponentSource client componentName applicationName projectName w).1 =
        some ("", "", some e)) := by
  have hbin : buildv1.BuildSourceBinary ≠ buildv1.BuildSourceGit := by decide
  refine ⟨?_, ?_, ?_⟩
  · intro git hty hgit
    simp [component.GetComponentSource, hfetch, hty, hgit]
  · intro hty hann
    simp [component.GetComponentSource, hfetch, hty, hbin, hann]
  · rintro (⟨hty, hann⟩ | ⟨hg, hb⟩)
    · simp [component.GetComponentSource, hfetch, hty, hbin, hann, fmt.Errorf]
    · simp [component.GetComponentSource, hfetch, hg, hb, fmt.Errorf]

/-- Witness of C10: a build config of source type Git. -/
theorem component.GetComponentSource_cases_witness :
    (component.GetComponentSource demo.client "nodejs" "myapp" "myproject" demo.world).1 =
      some ("git", "https://example.com/r.git", none) :=
  (component.GetComponentSource_cases demo.client "nodejs" "myapp" "myproject" demo.world
    { Annotations := [], Source := { Type_ := "Git", Git := some { URI := "https://example.com/r.git" } } }
    rfl).1 { URI := "https://example.com/r.git" } rfl rfl

/-! ### No component type returned -/

/-- Whenever the platform call succeeds with an empty list of component-type values,
`GetComponentType` returns the empty type with a nil error: in the `len(ctypes) < 1` branch
`errors.Wrap` is applied to the nil error of the successful call. -/
theorem component.GetComponentType_empty_returns_nil (env : Env) (client : occlient.Client)
    (componentName applicationName projectName : String) (w : World)
    (hcall : client.GetLabelValues projectName component.componentTypeLabel
      (component.ComponentLabel ++ "=" ++ componentName ++ "," ++
        env.application.ApplicationLabel ++ "=" ++ applicationName) = ([], none)) :
    (component.GetComponentType env client componentName applicationName projectName w).1 =
      ("", none) := by
  simp [component.GetComponentType, hcall]

/-- C11 (the code departs from the claim): when the platform call succeeds and returns no
component-type value at all, `GetComponentType` returns the empty type with a nil error,
where the claim requires the non-nil error "unable to find type". -/
theorem component.GetComponentType_no_type_nil_error :
    (demo.clientWithTypes []).GetLabelValues "myproject" component.componentTypeLabel
        (component.ComponentLabel ++ "=" ++ "backend" ++ "," ++
          demo.env.application.ApplicationLabel ++ "=" ++ "myapp") = ([], none) ∧
    (component.GetComponentType demo.env (demo.clientWithTypes [])
      "backend" "myapp" "myproject" demo.world).1 = ("", none) := by
  decide
